import Mathlib

/-!
# Talaria: computed columns, plugin loader and forwarding writer

A shallow embedding of three Go source files:

* `internal/column/computed/computed.go`  (the `identifier` column),
* `internal/scripting/plugin.go`          (`PluginLoader`),
* `internal/storage/writer/talaria/talaria.go` (`Writer`).

Machine integers are natural numbers reduced modulo `2^w` where the Go code
truncates.  Collaborators that live outside these files (the clock, the dialer,
the remote client, the encoder, the dynamic linker) are explicit inputs.
-/

namespace Talaria

/-! ## Go library primitives used by `identifier.Value` -/

/-- Go conversion `byte(v)`: keeps the low eight bits. -/
def toByte (v : Nat) : Nat := v % 256

/-- Go conversion `uint64(x)` of an `int64`: two's complement reinterpretation. -/
def toUint64 (x : Int) : Nat := (x % 2 ^ 64).toNat

/-- Go `binary.BigEndian.PutUint64(b, v)`: `b[0] = byte(v >> 56)`, ..., `b[7] = byte(v)`. -/
def putUint64 (v : Nat) : List Nat :=
  [toByte (v >>> 56), toByte (v >>> 48), toByte (v >>> 40), toByte (v >>> 32),
   toByte (v >>> 24), toByte (v >>> 16), toByte (v >>> 8), toByte v]

/-- Go `binary.BigEndian.PutUint32(b, v)`: `b[0] = byte(v >> 24)`, ..., `b[3] = byte(v)`. -/
def putUint32 (v : Nat) : List Nat :=
  [toByte (v >>> 24), toByte (v >>> 16), toByte (v >>> 8), toByte v]

/-- Go `encoding/hex` digit table `"0123456789abcdef"`. -/
def hextable : List Char :=
  ['0', '1', '2', '3', '4', '5', '6', '7', '8', '9', 'a', 'b', 'c', 'd', 'e', 'f']

/-- Go `hex.EncodeToString`: every byte `v` yields `hextable[v>>4]`, `hextable[v&0x0f]`. -/
def hexEncodeToString (src : List Nat) : String :=
  String.mk (src.flatMap fun v => [hextable.getD (v >>> 4) '?', hextable.getD (v &&& 15) '?'])

/-- Go `atomic.AddUint32(&x, 1)`: the new value, wrapping at `2^32`. -/
def addUint32 (x delta : Nat) : Nat := (x + delta) % 2 ^ 32

/-! ## `identifier` (computed.go) -/

/-- The `identifier` struct: `seq uint32`, `rnd uint32`, `name string`. -/
structure identifier where
  seq : Nat
  rnd : Nat
  name : String
deriving DecidableEq, Repr

/-- Well-typedness of the two `uint32` fields. -/
def identifier.WellTyped (c : identifier) : Prop := c.seq < 2 ^ 32 ∧ c.rnd < 2 ^ 32

/-- Go `binary.BigEndian.Uint32(b)` on the four bytes `b0 b1 b2 b3`:
`uint32(b[3]) | uint32(b[2])<<8 | uint32(b[1])<<16 | uint32(b[0])<<24`. -/
def uint32BE (b0 b1 b2 b3 : Nat) : Nat :=
  toByte b3 ||| (toByte b2 <<< 8) ||| (toByte b1 <<< 16) ||| (toByte b0 <<< 24)

/-- Go `newIdentifier(name)`; `b0 b1 b2 b3` are the four bytes filled in by `rand.Read`. -/
def newIdentifier (name : String) (b0 b1 b2 b3 : Nat) : identifier :=
  { seq := 0, rnd := uint32BE b0 b1 b2 b3, name := name }

/-- Go `(*identifier).Name`. -/
def identifier.Name (c : identifier) : String := c.name

/-- Go `(*identifier).Value`, with the clock reading `now` (the `int64` returned by
`time.Now().UTC().UnixNano()`) as an input.  Returns the value, the error
(`none` is Go's `nil`) and the column state after the call. -/
def identifier.Value (c : identifier) (now : Int) : String × Option String × identifier :=
  let seq' := addUint32 c.seq 1
  let id := putUint64 (toUint64 now) ++ putUint32 seq' ++ putUint32 c.rnd
  (hexEncodeToString id, none, { c with seq := seq' })

/-- Successive `Value` calls on one column, one per clock reading, threading the state. -/
def identifier.run (c : identifier) : List Int → List String
  | [] => []
  | now :: rest =>
    let r := c.Value now
    r.1 :: identifier.run r.2.2 rest

/-! ## Reading a produced identifier back (specification side) -/

/-- Value of one lowercase hexadecimal digit. -/
def hexDigit? (ch : Char) : Option Nat :=
  if '0' ≤ ch ∧ ch ≤ '9' then some (ch.toNat - '0'.toNat)
  else if 'a' ≤ ch ∧ ch ≤ 'f' then some (ch.toNat - 'a'.toNat + 10)
  else none

/-- Decode a lowercase hexadecimal text into bytes, two digits per byte. -/
def hexDecode? : List Char → Option (List Nat)
  | [] => some []
  | [_] => none
  | hi :: lo :: rest =>
    match hexDigit? hi, hexDigit? lo, hexDecode? rest with
    | some h, some l, some bs => some ((16 * h + l) :: bs)
    | _, _, _ => none

/-- Big-endian value of a byte sequence. -/
def beValue (bs : List Nat) : Nat := bs.foldl (fun acc b => 256 * acc + b) 0

/-- The sequence field of an identifier text: big-endian value of bytes 8..11. -/
def seqField? (s : String) : Option Nat :=
  (hexDecode? s.data).map fun bs => beValue ((bs.drop 8).take 4)

/-! ## Go values shared by the plugin loader and the writer -/

/-- A Go `error` value produced by a collaborator: its message and, when the error
carries a gRPC status (`GRPCStatus()`), that status code. -/
structure GoError where
  msg : String
  grpcStatus : Option Nat
deriving DecidableEq, Repr

/-- Go `errors.New(msg)`: an error with no gRPC status. -/
def errorsNew (msg : String) : GoError := { msg := msg, grpcStatus := none }

/-- Outcome of a Go call: it returns a result, or the goroutine panics. -/
inductive GoResult (α : Type) where
  | returned (a : α)
  | panicked (msg : String)
deriving DecidableEq, Repr

/-- Message of the runtime panic raised by calling a nil function value or by
dereferencing a nil pointer. -/
def nilDereference : String := "runtime error: invalid memory address or nil pointer dereference"

/-! ## `PluginLoader` (plugin.go) -/

/-- A Go `interface{}` value held in a row or returned by a column. -/
inductive Val where
  | null
  | int (i : Int)
  | str (s : String)
deriving DecidableEq, Repr

/-- Go `map[string]interface{}`. -/
abbrev Row := List (String × Val)

/-- Go `type mainFunc = func(map[string]interface{}) (interface{}, error)`. -/
abbrev mainFunc := Row → Val × Option GoError

/-- The `PluginLoader` struct; `main = none` is the nil function value.  The embedded
`Loader` only provides `watch` and holds no state read by the methods below. -/
structure PluginLoader where
  main : Option mainFunc
  functionName : String

/-- Go `NewPluginLoader(functionName)`: `main` is left at its zero value. -/
def NewPluginLoader (functionName : String) : PluginLoader :=
  { main := none, functionName := functionName }

/-- Go `(*PluginLoader).Value`: `return h.main(row)`; calling a nil function panics. -/
def PluginLoader.Value (h : PluginLoader) (row : Row) : GoResult (Val × Option GoError) :=
  match h.main with
  | none => .panicked nilDereference
  | some f => .returned (f row)

/-- An `io.Reader`: the bytes it yields, then end of input (`err = none`) or a read error. -/
structure Reader where
  data : List Nat
  err : Option GoError

/-- The temporary file returned by `ioutil.TempFile`: its name and, if writing to it
fails, after how many bytes and with which error. -/
structure TmpFile where
  name : String
  writeFailure : Option (Nat × GoError)

/-- Go `io.Copy(dst, src)`: the number of bytes written and the first error met. -/
def ioCopy (dst : TmpFile) (src : Reader) : Nat × Option GoError :=
  match dst.writeFailure with
  | some (n, e) => if n < src.data.length then (n, some e) else (src.data.length, src.err)
  | none => (src.data.length, src.err)

/-- A symbol exported by a loaded plugin, seen through its dynamic type. -/
inductive Symbol where
  | func (f : mainFunc)
  | other (goType : String)

/-- A loaded Go plugin: its exported symbols by name. -/
structure Plugin where
  symbols : List (String × Symbol)

/-- Go `(*plugin.Plugin).Lookup(symName)`. -/
def Plugin.Lookup (p : Plugin) (symName : String) : Except GoError Symbol :=
  match p.symbols.lookup symName with
  | some s => .ok s
  | none => .error (errorsNew ("plugin: symbol " ++ symName ++ " not found"))

/-- The operating-system services `updateGoPlugin` calls: the formatted current time,
`ioutil.TempFile("", pattern)` and `plugin.Open(path)` on a file with given contents. -/
structure PluginEnv where
  timestamp : String
  tempFile : String → Except GoError TmpFile
  pluginOpen : String → List Nat → Except GoError Plugin

/-- Go `(*PluginLoader).updateGoPlugin(r)`.  Returns the error (`none` is `nil`) and the
loader afterwards.  The two-value assertion `h.main, ok = f.(mainFunc)` stores the
zero value (nil) in `h.main` when the assertion fails. -/
def PluginLoader.updateGoPlugin (env : PluginEnv) (h : PluginLoader) (r : Reader) :
    Option GoError × PluginLoader :=
  let tmpFileName := env.timestamp ++ ".so"
  match env.tempFile tmpFileName with
  | .error err => (some err, h)
  | .ok tmpFile =>
    match ioCopy tmpFile r with
    | (_, some err) => (some err, h)
    | (written, none) =>
      if written = 0 then
        (some (errorsNew "PluginLoader load plugin content failed, content was empty"), h)
      else
        match env.pluginOpen tmpFile.name (r.data.take written) with
        | .error err => (some err, h)
        | .ok p =>
          match p.Lookup h.functionName with
          | .error err => (some err, h)
          | .ok f =>
            match f with
            | .func g => (none, { h with main := some g })
            | .other _ =>
              (some (errorsNew "type assertions on plugin funtion failed"),
                { h with main := none })

/-! ## `Writer` (talaria.go) -/

/-- gRPC `codes.Unknown`. -/
def codes.Unknown : Nat := 2

/-- gRPC `codes.Unavailable`. -/
def codes.Unavailable : Nat := 14

/-- Go `status.FromError(err)` followed by `.Code()` for a non-nil `err`: the code of the
status the error carries, `codes.Unknown` when it carries none. -/
def statusCode (err : GoError) : Nat :=
  match err.grpcStatus with
  | some c => c
  | none => codes.Unknown

/-- Modelled from the spec: `errors.Internal` of `internal/monitor/errors`, whose source
is not part of the three files.  "Every error is wrapped with the originating
subsystem's identity": the result is a non-nil error holding the message and the cause. -/
structure InternalError where
  message : String
  reason : GoError
deriving DecidableEq, Repr

/-- Constructor named as in the Go code. -/
def errors.Internal (message : String) (reason : GoError) : InternalError :=
  { message := message, reason := reason }

/-- A `block.Block`, kept abstract. -/
abbrev Block := List Nat

/-- A `key.Key`. -/
abbrev Key := List Nat

/-- A `*talaria.Client` handle. -/
abbrev Client := Nat

/-- A `*base.Writer` handle. -/
abbrev BaseWriter := Nat

/-- A `talaria.Option`; the writer only builds `talaria.WithCircuit(timeout, maxConcurrent,
errorPercentThreshold)`, the timeout being a `time.Duration` in nanoseconds. -/
inductive DialOption where
  | WithCircuit (timeout : Int) (maxConcurrent : Int) (errorPercentThreshold : Int)
deriving DecidableEq, Repr

/-- Calls made to collaborators, in the order they happen. -/
inductive Event where
  | baseNew (filter encoding : String)
  | encode (blocks : List Block)
  | dial (endpoint : String) (options : List DialOption)
  | ingest (client : Client) (buffer : List Nat)
deriving DecidableEq, Repr

/-- The history of collaborator calls. -/
abbrev Trace := List Event

/-- Number of dial attempts in a history. -/
def dials (tr : Trace) : Nat :=
  tr.countP fun e => match e with
    | .dial _ _ => true
    | _ => false

/-- Number of remote ingest calls in a history. -/
def ingests (tr : Trace) : Nat :=
  tr.countP fun e => match e with
    | .ingest _ _ => true
    | _ => false

/-- Number of encoder calls in a history. -/
def encodes (tr : Trace) : Nat :=
  tr.countP fun e => match e with
    | .encode _ => true
    | _ => false

/-- The collaborators of the writer.  Each answer may depend on the whole history of
calls made so far.  `dial` is `talaria.Dial`, which yields a client or an error;
`ingestORC` is `(*talaria.Client).IngestORC` (`none` is a nil error). -/
structure WriterEnv where
  baseNew : Trace → String → String → Except GoError BaseWriter
  encode : Trace → BaseWriter → List Block → Except GoError (List Nat)
  dial : Trace → String → List DialOption → Except GoError Client
  ingestORC : Trace → Client → List Nat → Option GoError
  defaultMaxConcurrent : Int
  defaultErrorPercentThreshold : Int

/-- Go `time.Second` as a `time.Duration`. -/
def timeSecond : Int := 1000000000

/-- Wrap-around of signed 64-bit arithmetic. -/
def wrapInt64 (x : Int) : Int := (x + 2 ^ 63) % 2 ^ 64 - 2 ^ 63

/-- Go `getClient(endpoint, options...)`. -/
def getClient (env : WriterEnv) (tr : Trace) (endpoint : String) (options : List DialOption) :
    Except GoError Client × Trace :=
  match env.dial tr endpoint options with
  | .error err => (.error err, tr ++ [Event.dial endpoint options])
  | .ok client => (.ok client, tr ++ [Event.dial endpoint options])

/-- The `Writer` struct; `client = none` is the nil pointer.  The mutex is not modelled:
calls are executed one at a time. -/
structure Writer where
  base : BaseWriter
  endpoint : String
  client : Option Client
  options : List DialOption
deriving DecidableEq, Repr

/-- The dial options `New` builds: unset parameters fall back to the defaults. -/
def newDialOptions (env : WriterEnv) (circuitTimeout maxConcurrent errorPercentThreshold :
    Option Int) : List DialOption :=
  let newTimeout := match circuitTimeout with
    | some t => wrapInt64 (t * timeSecond)
    | none => 5 * timeSecond
  let newMaxConcurrent := match maxConcurrent with
    | some m => m
    | none => env.defaultMaxConcurrent
  let newErrorPercentThreshold := match errorPercentThreshold with
    | some e => e
    | none => env.defaultErrorPercentThreshold
  [] ++ [DialOption.WithCircuit newTimeout newMaxConcurrent newErrorPercentThreshold]

/-- Go `New(endpoint, filter, encoding, loader, circuitTimeout, maxConcurrent,
errorPercentThreshold)`: `(nil, err)` is `.error err`, `(&Writer, nil)` is `.ok`. -/
def New (env : WriterEnv) (tr : Trace) (endpoint filter encoding : String)
    (circuitTimeout maxConcurrent errorPercentThreshold : Option Int) :
    Except InternalError Writer × Trace :=
  let tr1 := tr ++ [Event.baseNew filter encoding]
  match env.baseNew tr filter encoding with
  | .error err => (.error (errors.Internal "talaria: " err), tr1)
  | .ok baseWriter =>
    let dialOptions := newDialOptions env circuitTimeout maxConcurrent errorPercentThreshold
    match getClient env tr1 endpoint dialOptions with
    | (.error err, tr2) =>
      (.error (errors.Internal "talaria: unable to create a client" err), tr2)
    | (.ok client, tr2) =>
      (.ok { base := baseWriter, client := some client, endpoint := endpoint,
             options := dialOptions }, tr2)

/-- Go `(*Writer).tryConnect()`: the handle is replaced only when the dial succeeded. -/
def Writer.tryConnect (env : WriterEnv) (w : Writer) (tr : Trace) :
    Option GoError × Writer × Trace :=
  match getClient env tr w.endpoint w.options with
  | (.error err, tr1) => (some err, w, tr1)
  | (.ok client, tr1) => (none, { w with client := some client }, tr1)

/-- Go `(*Writer).Write(key, blocks)`.  Returns the error (`none` is `nil`), the writer
afterwards and the extended history.  A method call on a nil client is a nil
dereference. -/
def Writer.Write (env : WriterEnv) (w : Writer) (tr : Trace) (_key : Key)
    (blocks : List Block) : GoResult (Option InternalError) × Writer × Trace :=
  let connected : Option GoError × Writer × Trace :=
    match w.client with
    | none => w.tryConnect env tr
    | some _ => (none, w, tr)
  match connected with
  | (some err, w1, tr1) =>
    (.returned (some (errors.Internal "talaria: client is nil, unable to connect" err)), w1, tr1)
  | (none, w1, tr1) =>
    let tr2 := tr1 ++ [Event.encode blocks]
    match env.encode tr1 w1.base blocks with
    | .error err => (.returned (some (errors.Internal "talaria: encoding err" err)), w1, tr2)
    | .ok buffer =>
      match w1.client with
      | none => (.panicked nilDereference, w1, tr2)
      | some c =>
        let tr3 := tr2 ++ [Event.ingest c buffer]
        match env.ingestORC tr2 c buffer with
        | none => (.returned none, w1, tr3)
        | some err =>
          if codes.Unavailable = statusCode err then
            match w1.tryConnect env tr3 with
            | (some err2, w2, tr4) =>
              (.returned (some (errors.Internal "talaria: unable to redial" err2)), w2, tr4)
            | (none, w2, tr4) =>
              match w2.client with
              | none => (.panicked nilDereference, w2, tr4)
              | some c2 =>
                let tr5 := tr4 ++ [Event.ingest c2 buffer]
                match env.ingestORC tr4 c2 buffer with
                | some err3 =>
                  (.returned (some (errors.Internal "talaria: unable to write after redial"
                    err3)), w2, tr5)
                | none =>
                  (.returned (some (errors.Internal "talaria: unable to write" err)), w2, tr5)
          else
            (.returned (some (errors.Internal "talaria: unable to write" err)), w1, tr3)

/-- Writers obtainable through the package: built by `New`, then used by `Write`. -/
inductive Reachable (env : WriterEnv) : Writer → Prop where
  | new (tr : Trace) (endpoint filter encoding : String)
      (circuitTimeout maxConcurrent errorPercentThreshold : Option Int) (w : Writer)
      (h : (New env tr endpoint filter encoding circuitTimeout maxConcurrent
        errorPercentThreshold).1 = .ok w) : Reachable env w
  | write (w : Writer) (tr : Trace) (key : Key) (blocks : List Block)
      (h : Reachable env w) : Reachable env (w.Write env tr key blocks).2.1

/-! ## Concrete inputs used as examples -/

/-- A loaded function used in examples: the constant column `1`. -/
def exampleMain : mainFunc := fun _ => (Val.int 1, none)

/-- An environment in which the payload is stored and opens as a plugin whose symbol
`main` is a variable, not a function of type `mainFunc`. -/
def exampleMismatchEnv : PluginEnv :=
  { timestamp := "20200102150405"
    tempFile := fun pattern => .ok { name := "/tmp/" ++ pattern, writeFailure := none }
    pluginOpen := fun _ _ => .ok { symbols := [("main", Symbol.other "*int")] } }

/-- A writer environment in which client `7` answers with `firstErr`, every dial yields
client `8`, and client `8` answers with `retryErr`. -/
def exampleWriterEnv (firstErr retryErr : Option GoError) : WriterEnv :=
  { baseNew := fun _ _ _ => .ok 0
    encode := fun _ _ blocks => .ok blocks.flatten
    dial := fun _ _ _ => .ok 8
    ingestORC := fun _ c _ => if c = 7 then firstErr else retryErr
    defaultMaxConcurrent := 10
    defaultErrorPercentThreshold := 50 }

/-- A writer holding client `7`. -/
def exampleWriter : Writer :=
  { base := 0, endpoint := "localhost:8080", client := some 7,
    options := [DialOption.WithCircuit 5000000000 10 50] }

/-- The error of a call that found the server unavailable. -/
def exampleUnavailable : GoError := { msg := "transport is closing", grpcStatus := some 14 }

/-- The writer `New` builds in the example environment: it holds the dialled client `8`. -/
def exampleDialled : Writer :=
  { base := 0, endpoint := "localhost:8080", client := some 8,
    options := [DialOption.WithCircuit 5000000000 10 50] }

/-! ## Theorems on `identifier` -/

theorem hexDigit_hextable (n : Nat) (h : n < 16) : hexDigit? (hextable.getD n '?') = some n := by
  interval_cases n <;> rfl

theorem byte_split (v : Nat) (h : v < 256) :
    v >>> 4 < 16 ∧ v &&& 15 < 16 ∧ 16 * (v >>> 4) + (v &&& 15) = v := by
  have h1 : v &&& 15 = v % 16 := Nat.and_pow_two_sub_one_eq_mod v 4
  rw [h1, Nat.shiftRight_eq_div_pow]
  omega

theorem hextable_getD_lower (n : Nat) (h : n < 16) :
    ('0' ≤ hextable.getD n '?' ∧ hextable.getD n '?' ≤ '9') ∨
    ('a' ≤ hextable.getD n '?' ∧ hextable.getD n '?' ≤ 'f') := by
  interval_cases n <;> decide

theorem beValue_putUint64 (v : Nat) (h : v < 2 ^ 64) : beValue (putUint64 v) = v := by
  simp only [beValue, putUint64, toByte, List.foldl, Nat.shiftRight_eq_div_pow]
  omega

theorem beValue_putUint32 (v : Nat) (h : v < 2 ^ 32) : beValue (putUint32 v) = v := by
  simp only [beValue, putUint32, toByte, List.foldl, Nat.shiftRight_eq_div_pow]
  omega

theorem toUint64_lt (x : Int) : toUint64 x < 2 ^ 64 := by
  unfold toUint64
  omega

theorem uint32BE_lt (b0 b1 b2 b3 : Nat) : uint32BE b0 b1 b2 b3 < 2 ^ 32 := by
  unfold uint32BE toByte
  refine Nat.or_lt_two_pow (Nat.or_lt_two_pow (Nat.or_lt_two_pow ?_ ?_) ?_) ?_
  all_goals omega


theorem hexDecode_encode (bs : List Nat) (h : ∀ b ∈ bs, b < 256) :
    hexDecode? (hexEncodeToString bs).data = some bs := by
  induction bs with
  | nil => rfl
  | cons v rest ih =>
    have hv := byte_split v (h v (List.mem_cons_self _ _))
    have ih2 := ih (fun b hb => h b (List.mem_cons_of_mem _ hb))
    simp only [hexEncodeToString, List.flatMap_cons, List.cons_append, List.nil_append] at ih2 ⊢
    simp only [hexDecode?, hexDigit_hextable _ hv.1, hexDigit_hextable _ hv.2.1, ih2, hv.2.2]

theorem hexEncode_length (bs : List Nat) : (hexEncodeToString bs).length = 2 * bs.length := by
  induction bs with
  | nil => rfl
  | cons v rest ih =>
    simp only [hexEncodeToString, String.length, List.flatMap_cons, List.length_append,
      List.length_cons, List.length_nil] at ih ⊢
    omega

theorem hexEncode_lower (bs : List Nat) (h : ∀ b ∈ bs, b < 256) :
    ∀ ch ∈ (hexEncodeToString bs).data,
      ('0' ≤ ch ∧ ch ≤ '9') ∨ ('a' ≤ ch ∧ ch ≤ 'f') := by
  intro ch hch
  simp only [hexEncodeToString, List.mem_flatMap, List.mem_cons, List.mem_singleton,
    List.not_mem_nil, or_false] at hch
  obtain ⟨v, hv, hc⟩ := hch
  have hs := byte_split v (h v hv)
  rcases hc with hc | hc
  · rw [hc]; exact hextable_getD_lower _ hs.1
  · rw [hc]; exact hextable_getD_lower _ hs.2.1

theorem toByte_lt (v : Nat) : toByte v < 256 := by unfold toByte; omega

theorem idBytes_lt (a b c : Nat) : ∀ x ∈ putUint64 a ++ putUint32 b ++ putUint32 c, x < 256 := by
  simp [putUint64, putUint32, toByte_lt]

/-- C4: for a well-typed column state and any clock reading `now`, `identifier.Value`
returns no error and a text of exactly 32 lowercase hexadecimal characters which is
the hex encoding of 16 bytes: the first eight are `now` (as `uint64`) big-endian, the
next four are `(seq + 1) mod 2^32` big-endian, the last four are `rnd` big-endian; the
call keeps `rnd` and the name and advances the counter by one (mod `2^32`). -/
theorem identifier_Value_spec (c : identifier) (now : Int) (h : c.WellTyped) :
    (c.Value now).2.1 = none ∧
    (c.Value now).1.length = 32 ∧
    (∀ ch ∈ (c.Value now).1.data, ('0' ≤ ch ∧ ch ≤ '9') ∨ ('a' ≤ ch ∧ ch ≤ 'f')) ∧
    (∃ bytes, hexDecode? (c.Value now).1.data = some bytes ∧
      (c.Value now).1 = hexEncodeToString bytes ∧
      bytes.length = 16 ∧ (∀ b ∈ bytes, b < 256) ∧
      (beValue (bytes.take 8) : Int) = now % 2 ^ 64 ∧
      beValue ((bytes.drop 8).take 4) = (c.seq + 1) % 2 ^ 32 ∧
      beValue (bytes.drop 12) = c.rnd) ∧
    (c.Value now).2.2.rnd = c.rnd ∧
    (c.Value now).2.2.name = c.name ∧
    (c.Value now).2.2.seq = (c.seq + 1) % 2 ^ 32 := by
  have hb := idBytes_lt (toUint64 now) (addUint32 c.seq 1) c.rnd
  have hs : addUint32 c.seq 1 < 2 ^ 32 := by unfold addUint32; omega
  refine ⟨rfl, ?_, hexEncode_lower _ hb, ⟨_, hexDecode_encode _ hb, rfl, rfl, hb, ?_, ?_, ?_⟩,
    rfl, rfl, rfl⟩
  · simp only [identifier.Value, hexEncode_length]
    rfl
  · have h1 : (putUint64 (toUint64 now) ++ putUint32 (addUint32 c.seq 1)
        ++ putUint32 c.rnd).take 8 = putUint64 (toUint64 now) := rfl
    rw [h1, beValue_putUint64 _ (toUint64_lt now)]
    unfold toUint64
    omega
  · have h1 : ((putUint64 (toUint64 now) ++ putUint32 (addUint32 c.seq 1)
        ++ putUint32 c.rnd).drop 8).take 4 = putUint32 (addUint32 c.seq 1) := rfl
    rw [h1, beValue_putUint32 _ hs]
    rfl
  · have h1 : (putUint64 (toUint64 now) ++ putUint32 (addUint32 c.seq 1)
        ++ putUint32 c.rnd).drop 12 = putUint32 c.rnd := rfl
    rw [h1, beValue_putUint32 _ h.2]


theorem Value_wellTyped (c : identifier) (now : Int) (h : c.WellTyped) :
    (c.Value now).2.2.WellTyped := by
  refine ⟨?_, h.2⟩
  show addUint32 c.seq 1 < 2 ^ 32
  unfold addUint32; omega

theorem Value_seqField (c : identifier) (now : Int) :
    seqField? (c.Value now).1 = some ((c.seq + 1) % 2 ^ 32) := by
  have hb := idBytes_lt (toUint64 now) (addUint32 c.seq 1) c.rnd
  have hs : addUint32 c.seq 1 < 2 ^ 32 := by unfold addUint32; omega
  have hd : hexDecode? (c.Value now).1.data
      = some (putUint64 (toUint64 now) ++ putUint32 (addUint32 c.seq 1) ++ putUint32 c.rnd) :=
    hexDecode_encode _ hb
  have h1 : ((putUint64 (toUint64 now) ++ putUint32 (addUint32 c.seq 1)
      ++ putUint32 c.rnd).drop 8).take 4 = putUint32 (addUint32 c.seq 1) := rfl
  rw [seqField?, hd, Option.map_some', h1, beValue_putUint32 _ hs]
  rfl

theorem run_length (c : identifier) (clock : List Int) :
    (c.run clock).length = clock.length := by
  induction clock generalizing c with
  | nil => rfl
  | cons t rest ih => simp only [identifier.run, List.length_cons, ih]

theorem run_map_seqField (c : identifier) (clock : List Int) :
    (c.run clock).map seqField?
      = (List.range clock.length).map fun k => some ((c.seq + 1 + k) % 2 ^ 32) := by
  induction clock generalizing c with
  | nil => rfl
  | cons t rest ih =>
    simp only [identifier.run, List.map_cons, List.length_cons, List.range_succ_eq_map,
      List.map_map, ih, Value_seqField]
    refine congrArg₂ _ rfl (List.map_congr_left fun k _ => ?_)
    show some (((c.seq + 1) % 2 ^ 32 + 1 + k) % 2 ^ 32) = some ((c.seq + 1 + (k + 1)) % 2 ^ 32)
    congr 1
    omega

theorem run_getElem? (c : identifier) (clock : List Int) (k : Nat) :
    (c.run clock)[k]? = clock[k]?.map fun t =>
      (identifier.Value { c with seq := (c.seq + k) % 2 ^ 32 } t).1 := by
  induction clock generalizing c k with
  | nil => rfl
  | cons t rest ih =>
    cases k with
    | zero =>
      simp only [identifier.run, List.getElem?_cons_zero, Option.map_some', identifier.Value,
        addUint32, Nat.add_zero]
      have : (c.seq % 2 ^ 32 + 1) % 2 ^ 32 = (c.seq + 1) % 2 ^ 32 := by omega
      rw [this]
    | succ k =>
      simp only [identifier.run, List.getElem?_cons_succ, ih]
      have : ((c.Value t).2.2.seq + k) % 2 ^ 32 = (c.seq + (k + 1)) % 2 ^ 32 := by
        show (addUint32 c.seq 1 + k) % 2 ^ 32 = _
        unfold addUint32; omega
      rw [this]
      rfl


theorem run_mem_shape (c : identifier) (clock : List Int) :
    ∀ s ∈ c.run clock, s.length = 32 ∧
      ∀ ch ∈ s.data, ('0' ≤ ch ∧ ch ≤ '9') ∨ ('a' ≤ ch ∧ ch ≤ 'f') := by
  induction clock generalizing c with
  | nil => intro s hs; cases hs
  | cons t rest ih =>
    intro s hs
    simp only [identifier.run, List.mem_cons] at hs
    rcases hs with hs | hs
    · subst hs
      have hb := idBytes_lt (toUint64 t) (addUint32 c.seq 1) c.rnd
      refine ⟨?_, hexEncode_lower _ hb⟩
      simp only [identifier.Value, hexEncode_length]
      rfl
    · exact ih _ s hs

theorem seq_range_nodup (s n : Nat) (hn : n ≤ 2 ^ 32) :
    ((List.range n).map fun k => some ((s + 1 + k) % 2 ^ 32)).Nodup := by
  refine List.Nodup.map_on ?_ (List.nodup_range n)
  intro x hx y hy hxy
  rw [List.mem_range] at hx hy
  have := Option.some.inj hxy
  omega

theorem toUint64_eq_iff (t1 t2 : Int) :
    toUint64 t1 = toUint64 t2 ↔ t1 % 2 ^ 64 = t2 % 2 ^ 64 := by
  unfold toUint64
  omega

/-- Two `Value` results of columns with the same salt coincide exactly when both the
`uint64` clock readings and the incremented sequence values coincide. -/
theorem Value_eq_iff (c1 c2 : identifier) (t1 t2 : Int) (hr : c1.rnd = c2.rnd) :
    (c1.Value t1).1 = (c2.Value t2).1 ↔
      toUint64 t1 = toUint64 t2 ∧ (c1.seq + 1) % 2 ^ 32 = (c2.seq + 1) % 2 ^ 32 := by
  constructor
  · intro h
    have hb1 := idBytes_lt (toUint64 t1) (addUint32 c1.seq 1) c1.rnd
    have hb2 := idBytes_lt (toUint64 t2) (addUint32 c2.seq 1) c2.rnd
    have hd1 : hexDecode? (c1.Value t1).1.data
        = some (putUint64 (toUint64 t1) ++ putUint32 (addUint32 c1.seq 1) ++ putUint32 c1.rnd) :=
      hexDecode_encode _ hb1
    have hd2 : hexDecode? (c2.Value t2).1.data
        = some (putUint64 (toUint64 t2) ++ putUint32 (addUint32 c2.seq 1) ++ putUint32 c2.rnd) :=
      hexDecode_encode _ hb2
    rw [h, hd2] at hd1
    have hbytes := Option.some.inj hd1
    have hs1 : addUint32 c1.seq 1 < 2 ^ 32 := by unfold addUint32; omega
    have hs2 : addUint32 c2.seq 1 < 2 ^ 32 := by unfold addUint32; omega
    have ht : List.take 8 (putUint64 (toUint64 t2) ++ putUint32 (addUint32 c2.seq 1)
          ++ putUint32 c2.rnd)
        = List.take 8 (putUint64 (toUint64 t1) ++ putUint32 (addUint32 c1.seq 1)
          ++ putUint32 c1.rnd) := congrArg (List.take 8) hbytes
    have hq : List.take 4 (List.drop 8 (putUint64 (toUint64 t2)
          ++ putUint32 (addUint32 c2.seq 1) ++ putUint32 c2.rnd))
        = List.take 4 (List.drop 8 (putUint64 (toUint64 t1)
          ++ putUint32 (addUint32 c1.seq 1) ++ putUint32 c1.rnd)) :=
      congrArg (fun bs => List.take 4 (List.drop 8 bs)) hbytes
    have ht2 : putUint64 (toUint64 t2) = putUint64 (toUint64 t1) := ht
    have hq2 : putUint32 (addUint32 c2.seq 1) = putUint32 (addUint32 c1.seq 1) := hq
    have e1 := congrArg beValue ht2
    have e2 := congrArg beValue hq2
    rw [beValue_putUint64 _ (toUint64_lt t2), beValue_putUint64 _ (toUint64_lt t1)] at e1
    rw [beValue_putUint32 _ hs2, beValue_putUint32 _ hs1] at e2
    exact ⟨e1.symm, e2.symm⟩
  · intro h
    have h2 : addUint32 c1.seq 1 = addUint32 c2.seq 1 := h.2
    simp only [identifier.Value, h.1, h2, hr]

theorem run_getElem?_some (c : identifier) (clock : List Int) (k : Nat) (t : Int)
    (h : clock[k]? = some t) :
    (c.run clock)[k]? =
      some (identifier.Value { c with seq := (c.seq + k) % 2 ^ 32 } t).1 := by
  rw [run_getElem?, h]
  rfl

/-- Two calls of one run return the same text exactly when they are a multiple of `2^32`
calls apart and read the same nanosecond (as `uint64`). -/
theorem run_getElem?_eq_iff (c : identifier) (clock : List Int) (i j : Nat) (ti tj : Int)
    (hij : i < j) (hi : clock[i]? = some ti) (hj : clock[j]? = some tj) :
    (c.run clock)[i]? = (c.run clock)[j]? ↔
      (j - i) % 2 ^ 32 = 0 ∧ ti % 2 ^ 64 = tj % 2 ^ 64 := by
  rw [run_getElem?_some c clock i ti hi, run_getElem?_some c clock j tj hj]
  constructor
  · intro h
    have h2 := (Value_eq_iff { c with seq := (c.seq + i) % 2 ^ 32 }
      { c with seq := (c.seq + j) % 2 ^ 32 } ti tj rfl).1 (Option.some.inj h)
    refine ⟨?_, (toUint64_eq_iff ti tj).1 h2.1⟩
    have h3 : ((c.seq + i) % 2 ^ 32 + 1) % 2 ^ 32 = ((c.seq + j) % 2 ^ 32 + 1) % 2 ^ 32 := h2.2
    omega
  · intro h
    refine congrArg some ((Value_eq_iff { c with seq := (c.seq + i) % 2 ^ 32 }
      { c with seq := (c.seq + j) % 2 ^ 32 } ti tj rfl).2 ⟨(toUint64_eq_iff ti tj).2 h.2, ?_⟩)
    show ((c.seq + i) % 2 ^ 32 + 1) % 2 ^ 32 = ((c.seq + j) % 2 ^ 32 + 1) % 2 ^ 32
    omega

theorem run_nodup_iff (c : identifier) (clock : List Int) :
    (c.run clock).Nodup ↔
      ∀ i j ti tj, i < j → clock[i]? = some ti → clock[j]? = some tj →
        (j - i) % 2 ^ 32 = 0 → ti % 2 ^ 64 ≠ tj % 2 ^ 64 := by
  rw [List.nodup_iff_getElem?_ne_getElem?]
  constructor
  · intro h i j ti tj hij hi hj hmod heq
    have hjl : j < (c.run clock).length := by
      rw [run_length]
      exact (List.getElem?_eq_some.1 hj).1
    exact h i j hij hjl ((run_getElem?_eq_iff c clock i j ti tj hij hi hj).2 ⟨hmod, heq⟩)
  · intro h i j hij hjl heq
    rw [run_length] at hjl
    have hil : i < clock.length := Nat.lt_trans hij hjl
    have hi : clock[i]? = some (clock.get ⟨i, hil⟩) := List.getElem?_eq_getElem hil
    have hj : clock[j]? = some (clock.get ⟨j, hjl⟩) := List.getElem?_eq_getElem hjl
    have h2 := (run_getElem?_eq_iff c clock i j _ _ hij hi hj).1 heq
    exact h i j _ _ hij hi hj h2.1 h2.2

theorem run_seqField_ne (c : identifier) (clock : List Int) (i j : Nat) (ti tj : Int)
    (hij : i < j) (hi : clock[i]? = some ti) (hj : clock[j]? = some tj)
    (hmod : (j - i) % 2 ^ 32 ≠ 0) :
    (c.run clock)[i]?.bind seqField? ≠ (c.run clock)[j]?.bind seqField? := by
  rw [run_getElem?_some c clock i ti hi, run_getElem?_some c clock j tj hj]
  simp only [Option.some_bind, Value_seqField]
  intro h
  have h3 : ((c.seq + i) % 2 ^ 32 + 1) % 2 ^ 32 = ((c.seq + j) % 2 ^ 32 + 1) % 2 ^ 32 :=
    Option.some.inj h
  omega

/-- C5 (amended): for every number of successive `Value` calls on one column and every
sequence of clock readings, there is one result per call and every result is a text of
32 lowercase hexadecimal characters; the results are pairwise distinct exactly when no
two calls a positive multiple of `2^32` apart read the same nanosecond (as `uint64`).
Two calls that are not a multiple of `2^32` apart, whatever they read (the same
nanosecond included), differ in their sequence fields; in particular up to `2^32`
successive calls always give pairwise distinct results. -/
theorem identifier_run_distinct (c : identifier) (clock : List Int) :
    (c.run clock).length = clock.length ∧
    (∀ s ∈ c.run clock, s.length = 32 ∧
      ∀ ch ∈ s.data, ('0' ≤ ch ∧ ch ≤ '9') ∨ ('a' ≤ ch ∧ ch ≤ 'f')) ∧
    ((c.run clock).Nodup ↔
      ∀ i j ti tj, i < j → clock[i]? = some ti → clock[j]? = some tj →
        (j - i) % 2 ^ 32 = 0 → ti % 2 ^ 64 ≠ tj % 2 ^ 64) ∧
    (∀ i j ti tj, i < j → clock[i]? = some ti → clock[j]? = some tj →
      (j - i) % 2 ^ 32 ≠ 0 →
      (c.run clock)[i]?.bind seqField? ≠ (c.run clock)[j]?.bind seqField?) ∧
    (clock.length ≤ 2 ^ 32 →
      ((c.run clock).map seqField?).Nodup ∧ (c.run clock).Nodup) := by
  refine ⟨run_length c clock, run_mem_shape c clock, run_nodup_iff c clock,
    fun i j ti tj hij hi hj hmod => run_seqField_ne c clock i j ti tj hij hi hj hmod, ?_⟩
  intro hN
  have hseq : ((c.run clock).map seqField?).Nodup := by
    rw [run_map_seqField]
    exact seq_range_nodup _ _ hN
  exact ⟨hseq, List.Nodup.of_map _ hseq⟩

theorem identifier_run_distinct_witness :
    ((newIdentifier "id" 1 2 3 4).run (List.replicate (2 ^ 32) 0 ++ [1])).Nodup :=
  (identifier_run_distinct (newIdentifier "id" 1 2 3 4)
    (List.replicate (2 ^ 32) 0 ++ [1])).2.2.1.2 (by
      intro i j ti tj hij hi hj hmod
      have hjl : j < 2 ^ 32 + 1 := by
        have h := (List.getElem?_eq_some.1 hj).1
        rw [List.length_append, List.length_replicate, List.length_singleton] at h
        exact h
      have hi0 : i = 0 := by omega
      have hj0 : j = 2 ^ 32 := by omega
      subst hi0
      subst hj0
      rw [List.getElem?_append_left (by rw [List.length_replicate]; exact Nat.two_pow_pos 32),
        List.getElem?_replicate_of_lt (Nat.two_pow_pos 32)] at hi
      rw [List.getElem?_append_right (by rw [List.length_replicate]),
        List.length_replicate, Nat.sub_self] at hj
      have e1 : ti = 0 := (Option.some.inj hi).symm
      have e2 : tj = 1 := (Option.some.inj hj).symm
      rw [e1, e2]
      decide)

theorem identifier_Value_spec_witness :
    (newIdentifier "id" 222 173 190 239).WellTyped ∧
    ((newIdentifier "id" 222 173 190 239).Value 1600000000123456789).1.length = 32 ∧
    ((newIdentifier "id" 222 173 190 239).Value 1600000000123456789).2.2.seq = 1 :=
  ⟨⟨by decide, uint32BE_lt 222 173 190 239⟩,
    (identifier_Value_spec (newIdentifier "id" 222 173 190 239) 1600000000123456789
      ⟨by decide, uint32BE_lt 222 173 190 239⟩).2.1,
    (identifier_Value_spec (newIdentifier "id" 222 173 190 239) 1600000000123456789
      ⟨by decide, uint32BE_lt 222 173 190 239⟩).2.2.2.2.2.2⟩

/-- C5 as stated fails: `2^32 + 1` successive calls on a fresh column that all read the
same nanosecond do not give pairwise distinct results, because the 32-bit sequence
counter has wrapped around by the last call. -/
theorem identifier_run_repeats :
    ¬ ((newIdentifier "id" 0 0 0 0).run (List.replicate (2 ^ 32 + 1) 0)).Nodup := by
  intro h
  rw [List.nodup_iff_getElem?_ne_getElem?] at h
  have hlen : 2 ^ 32 < ((newIdentifier "id" 0 0 0 0).run (List.replicate (2 ^ 32 + 1) 0)).length := by
    rw [run_length, List.length_replicate]
    exact Nat.lt_succ_self _
  refine h 0 (2 ^ 32) (Nat.pos_pow_of_pos 32 (by decide)) hlen ?_
  rw [run_getElem?, run_getElem?, List.getElem?_replicate_of_lt (Nat.succ_pos _),
    List.getElem?_replicate_of_lt (Nat.lt_succ_self _)]
  rfl

/-! ## Theorems on `PluginLoader` -/

theorem ioCopy_empty (dst : TmpFile) (r : Reader) (h : r.data = []) :
    ioCopy dst r = (0, r.err) := by
  unfold ioCopy
  rw [h]
  cases dst.writeFailure with
  | none => rfl
  | some p => rfl

/-- When the configured symbol is absent from the loaded plugin, the update fails with
the lookup error and the loader is unchanged. -/
theorem updateGoPlugin_symbol_absent (env : PluginEnv) (h : PluginLoader) (r : Reader)
    (tmp : TmpFile) (written : Nat) (p : Plugin) (e : GoError)
    (h1 : env.tempFile (env.timestamp ++ ".so") = .ok tmp)
    (h2 : ioCopy tmp r = (written, none)) (h3 : written ≠ 0)
    (h4 : env.pluginOpen tmp.name (r.data.take written) = .ok p)
    (h5 : p.Lookup h.functionName = .error e) :
    h.updateGoPlugin env r = (some e, h) := by
  simp only [PluginLoader.updateGoPlugin, h1, h2, h3, h4, h5, if_false]

/-- C2: on a loader returned by `NewPluginLoader`, `Value` calls the nil function `main`
and panics with a nil dereference; it does not return a "not ready" error. -/
theorem NewPluginLoader_Value_panics (functionName : String) (row : Row) :
    (NewPluginLoader functionName).Value row = GoResult.panicked nilDereference ∧
    ∀ res, (NewPluginLoader functionName).Value row ≠ GoResult.returned res := by
  refine ⟨rfl, fun res hres => ?_⟩
  have : GoResult.panicked nilDereference = GoResult.returned res := hres
  cases this

/-- C3: when the resolved symbol does not have the type `mainFunc`, `updateGoPlugin`
returns an error but has already overwritten `main` with nil: the previously loaded
function is lost and the next `Value` panics. -/
theorem updateGoPlugin_mismatch_clears_main (env : PluginEnv) (h : PluginLoader) (r : Reader)
    (f : mainFunc) (tmp : TmpFile) (written : Nat) (p : Plugin) (goType : String)
    (h0 : h.main = some f)
    (h1 : env.tempFile (env.timestamp ++ ".so") = .ok tmp)
    (h2 : ioCopy tmp r = (written, none)) (h3 : written ≠ 0)
    (h4 : env.pluginOpen tmp.name (r.data.take written) = .ok p)
    (h5 : p.Lookup h.functionName = .ok (Symbol.other goType)) :
    (h.updateGoPlugin env r).1 = some (errorsNew "type assertions on plugin funtion failed") ∧
    (h.updateGoPlugin env r).2.main = none ∧
    (h.updateGoPlugin env r).2.main ≠ h.main ∧
    ∀ row, (h.updateGoPlugin env r).2.Value row = GoResult.panicked nilDereference := by
  have hu : h.updateGoPlugin env r =
      (some (errorsNew "type assertions on plugin funtion failed"), { h with main := none }) := by
    simp only [PluginLoader.updateGoPlugin, h1, h2, h3, h4, h5, if_false]
  rw [hu, h0]
  exact ⟨rfl, rfl, fun hc => Option.noConfusion hc, fun _ => rfl⟩

theorem updateGoPlugin_mismatch_clears_main_witness :
    (({ main := some exampleMain, functionName := "main" } : PluginLoader).updateGoPlugin
        exampleMismatchEnv { data := [127, 69, 76, 70], err := none }).2.main = none :=
  (updateGoPlugin_mismatch_clears_main exampleMismatchEnv
    { main := some exampleMain, functionName := "main" }
    { data := [127, 69, 76, 70], err := none } exampleMain
    { name := "/tmp/20200102150405.so", writeFailure := none } 4
    { symbols := [("main", Symbol.other "*int")] } "*int"
    rfl rfl rfl (by decide) rfl rfl).2.1

/-- C8: when the reader yields zero bytes, `updateGoPlugin` returns an error and leaves
the loader, hence its active function and what `Value` does, exactly as before. -/
theorem updateGoPlugin_empty_payload (env : PluginEnv) (h : PluginLoader) (r : Reader)
    (hr : r.data = []) :
    (h.updateGoPlugin env r).1 ≠ none ∧
    (h.updateGoPlugin env r).2 = h ∧
    (h.updateGoPlugin env r).2.main = h.main ∧
    ∀ row, (h.updateGoPlugin env r).2.Value row = h.Value row := by
  have key : (h.updateGoPlugin env r).1 ≠ none ∧ (h.updateGoPlugin env r).2 = h := by
    cases ht : env.tempFile (env.timestamp ++ ".so") with
    | error err => simp [PluginLoader.updateGoPlugin, ht]
    | ok tmp =>
      cases he : r.err with
      | some err => simp [PluginLoader.updateGoPlugin, ht, ioCopy_empty tmp r hr, he]
      | none => simp [PluginLoader.updateGoPlugin, ht, ioCopy_empty tmp r hr, he]
  refine ⟨key.1, key.2, ?_, fun row => ?_⟩
  · rw [key.2]
  · rw [key.2]

theorem updateGoPlugin_empty_payload_witness :
    ({ data := [], err := none } : Reader).data = [] ∧
    ∀ row, (({ main := some exampleMain, functionName := "main" } :
        PluginLoader).updateGoPlugin exampleMismatchEnv { data := [], err := none }).2.Value row
      = GoResult.returned (Val.int 1, none) :=
  ⟨rfl, fun row =>
    ((updateGoPlugin_empty_payload exampleMismatchEnv
      { main := some exampleMain, functionName := "main" } { data := [], err := none }
      rfl).2.2.2 row).trans rfl⟩

/-! ## Theorems on `Writer` -/

theorem tryConnect_ok (env : WriterEnv) (w : Writer) (tr : Trace) (c : Client)
    (h : env.dial tr w.endpoint w.options = .ok c) :
    w.tryConnect env tr =
      (none, { w with client := some c }, tr ++ [Event.dial w.endpoint w.options]) := by
  simp only [Writer.tryConnect, getClient, h]

theorem tryConnect_error (env : WriterEnv) (w : Writer) (tr : Trace) (e : GoError)
    (h : env.dial tr w.endpoint w.options = .error e) :
    w.tryConnect env tr = (some e, w, tr ++ [Event.dial w.endpoint w.options]) := by
  simp only [Writer.tryConnect, getClient, h]

theorem statusCode_unavailable_iff (err : GoError) :
    codes.Unavailable = statusCode err ↔ err.grpcStatus = some codes.Unavailable := by
  unfold statusCode
  cases h : err.grpcStatus with
  | none => simp [codes.Unavailable, codes.Unknown]
  | some c => simp [eq_comm]

/-- What `Write` does once the first remote call has failed with `unavailable`. -/
theorem Write_unavailable_eq (env : WriterEnv) (w : Writer) (tr : Trace) (key : Key)
    (blocks : List Block) (c : Client) (buffer : List Nat) (err : GoError)
    (hc : w.client = some c)
    (he : env.encode tr w.base blocks = .ok buffer)
    (hi : env.ingestORC (tr ++ [Event.encode blocks]) c buffer = some err)
    (hu : err.grpcStatus = some codes.Unavailable) :
    w.Write env tr key blocks =
      match w.tryConnect env (tr ++ [Event.encode blocks] ++ [Event.ingest c buffer]) with
      | (some err2, w2, tr4) =>
        (.returned (some (errors.Internal "talaria: unable to redial" err2)), w2, tr4)
      | (none, w2, tr4) =>
        match w2.client with
        | none => (.panicked nilDereference, w2, tr4)
        | some c2 =>
          match env.ingestORC tr4 c2 buffer with
          | some err3 =>
            (.returned (some (errors.Internal "talaria: unable to write after redial" err3)),
              w2, tr4 ++ [Event.ingest c2 buffer])
          | none =>
            (.returned (some (errors.Internal "talaria: unable to write" err)), w2,
              tr4 ++ [Event.ingest c2 buffer]) := by
  have hs := (statusCode_unavailable_iff err).2 hu
  simp only [Writer.Write, hc, he, hi, hs, if_true]

/-- C9: with a connection, a successful encode and a successful remote call, `Write`
encodes once, issues one remote call carrying the encoded payload, dials nothing,
leaves the writer as it was and returns nil. -/
theorem Write_healthy (env : WriterEnv) (w : Writer) (tr : Trace) (key : Key)
    (blocks : List Block) (c : Client) (buffer : List Nat)
    (hc : w.client = some c)
    (he : env.encode tr w.base blocks = .ok buffer)
    (hi : env.ingestORC (tr ++ [Event.encode blocks]) c buffer = none) :
    w.Write env tr key blocks =
      (.returned none, w, tr ++ [Event.encode blocks] ++ [Event.ingest c buffer]) ∧
    encodes (w.Write env tr key blocks).2.2 = encodes tr + 1 ∧
    ingests (w.Write env tr key blocks).2.2 = ingests tr + 1 ∧
    dials (w.Write env tr key blocks).2.2 = dials tr := by
  have hw : w.Write env tr key blocks =
      (.returned none, w, tr ++ [Event.encode blocks] ++ [Event.ingest c buffer]) := by
    simp only [Writer.Write, hc, he, hi]
  rw [hw]
  simp [encodes, ingests, dials, List.countP_append, List.countP_cons]

theorem Write_healthy_witness :
    exampleWriter.Write (exampleWriterEnv none none) [] [1] [[1, 2], [3]] =
      (.returned none, exampleWriter, [Event.encode [[1, 2], [3]], Event.ingest 7 [1, 2, 3]]) :=
  (Write_healthy (exampleWriterEnv none none) exampleWriter [] [1] [[1, 2], [3]] 7 [1, 2, 3]
    rfl rfl rfl).1

/-- C7: when the remote call fails with an error whose status code is not `unavailable`
(an error without status included), `Write` dials nothing, issues no second remote
call, leaves the writer (and its client) unchanged and returns a non-nil error. -/
theorem Write_other_failure (env : WriterEnv) (w : Writer) (tr : Trace) (key : Key)
    (blocks : List Block) (c : Client) (buffer : List Nat) (err : GoError)
    (hc : w.client = some c)
    (he : env.encode tr w.base blocks = .ok buffer)
    (hi : env.ingestORC (tr ++ [Event.encode blocks]) c buffer = some err)
    (hu : err.grpcStatus ≠ some codes.Unavailable) :
    w.Write env tr key blocks =
      (.returned (some (errors.Internal "talaria: unable to write" err)), w,
        tr ++ [Event.encode blocks] ++ [Event.ingest c buffer]) ∧
    (w.Write env tr key blocks).2.1.client = w.client ∧
    (w.Write env tr key blocks).1 ≠ .returned none := by
  have hs : ¬ codes.Unavailable = statusCode err :=
    fun h => hu ((statusCode_unavailable_iff err).1 h)
  have hw : w.Write env tr key blocks =
      (.returned (some (errors.Internal "talaria: unable to write" err)), w,
        tr ++ [Event.encode blocks] ++ [Event.ingest c buffer]) := by
    simp only [Writer.Write, hc, he, hi, hs, if_false]
  rw [hw]
  refine ⟨rfl, rfl, fun h => ?_⟩
  cases h

theorem Write_other_failure_witness :
    exampleWriter.Write (exampleWriterEnv (some (errorsNew "hystrix: timeout")) none) [] [1]
        [[1, 2], [3]] =
      (.returned (some (errors.Internal "talaria: unable to write"
          (errorsNew "hystrix: timeout"))), exampleWriter,
        [Event.encode [[1, 2], [3]], Event.ingest 7 [1, 2, 3]]) :=
  (Write_other_failure (exampleWriterEnv (some (errorsNew "hystrix: timeout")) none)
    exampleWriter [] [1] [[1, 2], [3]] 7 [1, 2, 3] (errorsNew "hystrix: timeout")
    rfl rfl rfl (by decide)).1

/-- C6: when the first remote call fails with `unavailable`, `Write` dials exactly once;
if the dial fails no further remote call is made; if it succeeds the new client is
installed and exactly one more remote call is made with the same payload, and a failure
of that retry is the error returned. -/
theorem Write_unavailable_once (env : WriterEnv) (w : Writer) (tr : Trace) (key : Key)
    (blocks : List Block) (c : Client) (buffer : List Nat) (err : GoError)
    (hc : w.client = some c)
    (he : env.encode tr w.base blocks = .ok buffer)
    (hi : env.ingestORC (tr ++ [Event.encode blocks]) c buffer = some err)
    (hu : err.grpcStatus = some codes.Unavailable) :
    dials (w.Write env tr key blocks).2.2 = dials tr + 1 ∧
    ingests (w.Write env tr key blocks).2.2 ≤ ingests tr + 2 ∧
    (∀ e2, env.dial (tr ++ [Event.encode blocks] ++ [Event.ingest c buffer])
        w.endpoint w.options = .error e2 →
      w.Write env tr key blocks =
        (.returned (some (errors.Internal "talaria: unable to redial" e2)), w,
          tr ++ [Event.encode blocks] ++ [Event.ingest c buffer]
            ++ [Event.dial w.endpoint w.options])) ∧
    (∀ c2, env.dial (tr ++ [Event.encode blocks] ++ [Event.ingest c buffer])
        w.endpoint w.options = .ok c2 →
      (w.Write env tr key blocks).2.2 =
        tr ++ [Event.encode blocks] ++ [Event.ingest c buffer]
          ++ [Event.dial w.endpoint w.options] ++ [Event.ingest c2 buffer] ∧
      ingests (w.Write env tr key blocks).2.2 = ingests tr + 2 ∧
      (w.Write env tr key blocks).2.1 = { w with client := some c2 } ∧
      ∀ e3, env.ingestORC (tr ++ [Event.encode blocks] ++ [Event.ingest c buffer]
          ++ [Event.dial w.endpoint w.options]) c2 buffer = some e3 →
        (w.Write env tr key blocks).1 =
          .returned (some (errors.Internal "talaria: unable to write after redial" e3))) := by
  have hw := Write_unavailable_eq env w tr key blocks c buffer err hc he hi hu
  cases hd : env.dial (tr ++ [Event.encode blocks] ++ [Event.ingest c buffer])
      w.endpoint w.options with
  | error e2 =>
    rw [tryConnect_error env w _ e2 hd] at hw
    rw [hw]
    refine ⟨?_, ?_, ?_, ?_⟩
    · simp [dials, List.countP_append, List.countP_cons]
    · simp [ingests, List.countP_append, List.countP_cons]
    · intro e2' h2
      cases h2
      rfl
    · intro c2 h2
      cases h2
  | ok c2 =>
    rw [tryConnect_ok env w _ c2 hd] at hw
    cases hr : env.ingestORC (tr ++ [Event.encode blocks] ++ [Event.ingest c buffer]
        ++ [Event.dial w.endpoint w.options]) c2 buffer with
    | none =>
      simp only [hr] at hw
      rw [hw]
      refine ⟨?_, ?_, ?_, ?_⟩
      · simp [dials, List.countP_append, List.countP_cons]
      · simp [ingests, List.countP_append, List.countP_cons]
      · intro e2 h2
        cases h2
      · intro c2' h2
        cases h2
        refine ⟨rfl, ?_, rfl, ?_⟩
        · simp [ingests, List.countP_append, List.countP_cons]
        · intro e3 h3
          rw [hr] at h3
          cases h3
    | some e3 =>
      simp only [hr] at hw
      rw [hw]
      refine ⟨?_, ?_, ?_, ?_⟩
      · simp [dials, List.countP_append, List.countP_cons]
      · simp [ingests, List.countP_append, List.countP_cons]
      · intro e2 h2
        cases h2
      · intro c2' h2
        cases h2
        refine ⟨rfl, ?_, rfl, ?_⟩
        · simp [ingests, List.countP_append, List.countP_cons]
        · intro e3' h3
          rw [hr] at h3
          cases h3
          rfl

theorem Write_unavailable_once_witness :
    (exampleWriter.Write (exampleWriterEnv (some exampleUnavailable) (some exampleUnavailable))
        [] [1] [[1, 2], [3]]).1 =
      .returned (some (errors.Internal "talaria: unable to write after redial"
        exampleUnavailable)) :=
  ((Write_unavailable_once
    (exampleWriterEnv (some exampleUnavailable) (some exampleUnavailable)) exampleWriter
    [] [1] [[1, 2], [3]] 7 [1, 2, 3] exampleUnavailable rfl rfl rfl rfl).2.2.2 8 rfl).2.2.2
    exampleUnavailable rfl

/-- C1: on the `unavailable` path, when the reconnect succeeds and the retried remote
call succeeds, `Write` still falls through to `return errors.Internal("talaria: unable
to write", err)` with the error of the first call: it returns a non-nil error. -/
theorem Write_retry_success_returns_error (env : WriterEnv) (w : Writer) (tr : Trace)
    (key : Key) (blocks : List Block) (c c2 : Client) (buffer : List Nat) (err : GoError)
    (hc : w.client = some c)
    (he : env.encode tr w.base blocks = .ok buffer)
    (hi : env.ingestORC (tr ++ [Event.encode blocks]) c buffer = some err)
    (hu : err.grpcStatus = some codes.Unavailable)
    (hd : env.dial (tr ++ [Event.encode blocks] ++ [Event.ingest c buffer])
      w.endpoint w.options = .ok c2)
    (hr : env.ingestORC (tr ++ [Event.encode blocks] ++ [Event.ingest c buffer]
      ++ [Event.dial w.endpoint w.options]) c2 buffer = none) :
    (w.Write env tr key blocks).1 =
      .returned (some (errors.Internal "talaria: unable to write" err)) ∧
    (w.Write env tr key blocks).1 ≠ .returned none := by
  have hw := Write_unavailable_eq env w tr key blocks c buffer err hc he hi hu
  rw [tryConnect_ok env w _ c2 hd] at hw
  simp only [hr] at hw
  rw [hw]
  refine ⟨rfl, fun h => ?_⟩
  cases h

theorem Write_retry_success_returns_error_witness :
    (exampleWriter.Write (exampleWriterEnv (some exampleUnavailable) none)
        [] [1] [[1, 2], [3]]).1 =
      .returned (some (errors.Internal "talaria: unable to write" exampleUnavailable)) :=
  (Write_retry_success_returns_error (exampleWriterEnv (some exampleUnavailable) none)
    exampleWriter [] [1] [[1, 2], [3]] 7 8 [1, 2, 3] exampleUnavailable
    rfl rfl rfl rfl rfl rfl).1

theorem tryConnect_client (env : WriterEnv) (w : Writer) (tr : Trace) :
    ((w.tryConnect env tr).1 ≠ none → (w.tryConnect env tr).2.1 = w) ∧
    ((w.tryConnect env tr).1 = none → (w.tryConnect env tr).2.1.client ≠ none) := by
  cases hd : env.dial tr w.endpoint w.options with
  | error e =>
    rw [tryConnect_error env w tr e hd]
    exact ⟨fun _ => rfl, fun h => by cases h⟩
  | ok c =>
    rw [tryConnect_ok env w tr c hd]
    exact ⟨fun h => absurd rfl h, fun _ h => by cases h⟩

theorem Write_keeps_client (env : WriterEnv) (w : Writer) (tr : Trace) (key : Key)
    (blocks : List Block) (hc : w.client ≠ none) :
    (w.Write env tr key blocks).2.1.client ≠ none ∧
    ∀ msg, (w.Write env tr key blocks).1 ≠ .panicked msg := by
  obtain ⟨c, hc1⟩ := Option.ne_none_iff_exists'.1 hc
  cases he : env.encode tr w.base blocks with
  | error e =>
    have hw : w.Write env tr key blocks =
        (.returned (some (errors.Internal "talaria: encoding err" e)), w,
          tr ++ [Event.encode blocks]) := by
      simp only [Writer.Write, hc1, he]
    rw [hw]
    exact ⟨hc, fun msg h => by cases h⟩
  | ok buffer =>
    cases hi : env.ingestORC (tr ++ [Event.encode blocks]) c buffer with
    | none =>
      have hw : w.Write env tr key blocks =
          (.returned none, w, tr ++ [Event.encode blocks] ++ [Event.ingest c buffer]) := by
        simp only [Writer.Write, hc1, he, hi]
      rw [hw]
      exact ⟨hc, fun msg h => by cases h⟩
    | some err =>
      by_cases hu : err.grpcStatus = some codes.Unavailable
      · have hw := Write_unavailable_eq env w tr key blocks c buffer err hc1 he hi hu
        cases hd : env.dial (tr ++ [Event.encode blocks] ++ [Event.ingest c buffer])
            w.endpoint w.options with
        | error e2 =>
          rw [tryConnect_error env w _ e2 hd] at hw
          rw [hw]
          exact ⟨hc, fun msg h => by cases h⟩
        | ok c2 =>
          rw [tryConnect_ok env w _ c2 hd] at hw
          cases hr : env.ingestORC (tr ++ [Event.encode blocks] ++ [Event.ingest c buffer]
              ++ [Event.dial w.endpoint w.options]) c2 buffer with
          | none =>
            simp only [hr] at hw
            rw [hw]
            exact ⟨fun h => (by cases h), fun msg h => (by cases h)⟩
          | some e3 =>
            simp only [hr] at hw
            rw [hw]
            exact ⟨fun h => (by cases h), fun msg h => (by cases h)⟩
      · have hs : ¬ codes.Unavailable = statusCode err :=
          fun h => hu ((statusCode_unavailable_iff err).1 h)
        have hw : w.Write env tr key blocks =
            (.returned (some (errors.Internal "talaria: unable to write" err)), w,
              tr ++ [Event.encode blocks] ++ [Event.ingest c buffer]) := by
          simp only [Writer.Write, hc1, he, hi, hs, if_false]
        rw [hw]
        exact ⟨hc, fun msg h => by cases h⟩

theorem New_client (env : WriterEnv) (tr : Trace) (endpoint filter encoding : String)
    (circuitTimeout maxConcurrent errorPercentThreshold : Option Int) (w : Writer)
    (h : (New env tr endpoint filter encoding circuitTimeout maxConcurrent
      errorPercentThreshold).1 = .ok w) : w.client ≠ none := by
  unfold New at h
  cases hb : env.baseNew tr filter encoding with
  | error e =>
    simp only [hb] at h
    cases h
  | ok b =>
    cases hd : env.dial (tr ++ [Event.baseNew filter encoding]) endpoint
        (newDialOptions env circuitTimeout maxConcurrent errorPercentThreshold) with
    | error e =>
      simp only [hb, getClient, hd] at h
      cases h
    | ok c =>
      simp only [hb, getClient, hd] at h
      cases h
      exact fun hc => by cases hc

theorem reachable_client (env : WriterEnv) (w : Writer) (h : Reachable env w) :
    w.client ≠ none := by
  induction h with
  | new tr endpoint filter encoding ct mc ept w h =>
    exact New_client env tr endpoint filter encoding ct mc ept w h
  | write w tr key blocks _ ih => exact (Write_keeps_client env w tr key blocks ih).1

/-- C10: the client handle is non-nil in every reachable state.  `New` returns an error
and no writer when the initial dial fails and otherwise a writer holding the dialled
client; `tryConnect` leaves the writer untouched when its dial fails; hence every writer
reachable through `New` and `Write` has a client, and every `Write` on it, whatever its
outcome, leaves a client in place and never dereferences a nil client. -/
theorem Writer_client_never_nil (env : WriterEnv) :
    (∀ tr endpoint filter encoding circuitTimeout maxConcurrent errorPercentThreshold e,
      env.dial (tr ++ [Event.baseNew filter encoding]) endpoint
        (newDialOptions env circuitTimeout maxConcurrent errorPercentThreshold) = .error e →
      ∃ ie, (New env tr endpoint filter encoding circuitTimeout maxConcurrent
        errorPercentThreshold).1 = .error ie) ∧
    (∀ tr endpoint filter encoding circuitTimeout maxConcurrent errorPercentThreshold w,
      (New env tr endpoint filter encoding circuitTimeout maxConcurrent
        errorPercentThreshold).1 = .ok w → w.client ≠ none) ∧
    (∀ (w : Writer) (tr : Trace),
      (w.tryConnect env tr).1 ≠ none → (w.tryConnect env tr).2.1 = w) ∧
    (∀ w : Writer, Reachable env w → w.client ≠ none) ∧
    (∀ (w : Writer) (tr : Trace) (key : Key) (blocks : List Block), Reachable env w →
      (w.Write env tr key blocks).2.1.client ≠ none ∧
      ∀ msg, (w.Write env tr key blocks).1 ≠ .panicked msg) := by
  refine ⟨?_, ?_, ?_, ?_, ?_⟩
  · intro tr endpoint filter encoding ct mc ept e hd
    cases hb : env.baseNew tr filter encoding with
    | error e0 => exact ⟨errors.Internal "talaria: " e0, by simp only [New, hb]⟩
    | ok b =>
      exact ⟨errors.Internal "talaria: unable to create a client" e,
        by simp only [New, hb, getClient, hd]⟩
  · intro tr endpoint filter encoding ct mc ept w h
    exact New_client env tr endpoint filter encoding ct mc ept w h
  · intro w tr
    exact (tryConnect_client env w tr).1
  · intro w h
    exact reachable_client env w h
  · intro w tr key blocks h
    exact Write_keeps_client env w tr key blocks (reachable_client env w h)

theorem exampleDialled_reachable :
    Reachable (exampleWriterEnv (some exampleUnavailable) none) exampleDialled :=
  Reachable.new [] "localhost:8080" "" "orc" none none none exampleDialled rfl

theorem Writer_client_never_nil_witness :
    (exampleDialled.Write (exampleWriterEnv (some exampleUnavailable) none)
        [] [2] [[4]]).2.1.client ≠ none :=
  ((Writer_client_never_nil (exampleWriterEnv (some exampleUnavailable) none)).2.2.2.2
    exampleDialled [] [2] [[4]] exampleDialled_reachable).1

end Talaria
